import Mathlib

/-!
Verification of the scoped content extraction and sandboxed handler subsystem
of the webcontent-api repository.

JavaScript strings are modelled as `List Char` (`Str`). JavaScript runtime
values reaching the scope validator are modelled by `JsValue`; JS numbers are
modelled exactly as needed by the code under study (`JsNum`: NaN, the two
infinities, and finite values as rationals — no arithmetic beyond comparison
is performed by the code, so IEEE-754 rounding never becomes observable).

Each definition mirrors one function of the source:
- `cleanText` ← `cleanText` (src/services/html-parser.ts)
- `validateScope`, `parseScopeArg`, `scopeToString` ← scope.ts
- `validateFunctionSyntax`, `runScopeFunctionGate` ← sandbox.ts
- `DOMBridge.*` ← dom-bridge.ts (the linkedom engine is an explicit parameter)
- `parseHtml`, `extractContent`, `parseHtmlMeta` ← html-parser.ts
  (node-html-parser is modelled by a lenient stack tokenizer/builder that
  agrees with it on the well-formed inputs used in the concrete theorems)
-/

namespace WebContent

/-- JavaScript strings, modelled as lists of characters. -/
abbrev Str := List Char

/-- The JavaScript whitespace class `\s` (also the class trimmed by
`String.prototype.trim`): ASCII whitespace, NBSP, the Unicode space
separators, the line separators and the BOM. -/
def isJsWs (c : Char) : Bool :=
  c = ' ' || c = '\t' || c = '\n' || c = '\u000B' || c = '\u000C' || c = '\r' ||
  c = '\u00A0' || c = '\u1680' || ('\u2000' ≤ c && c ≤ '\u200A') ||
  c = '\u2028' || c = '\u2029' || c = '\u202F' || c = '\u205F' ||
  c = '\u3000' || c = '\uFEFF'

/-- JavaScript `String.prototype.trim`: drop `\s`-class characters from both
ends. -/
def jsTrim (l : Str) : Str :=
  ((l.dropWhile isJsWs).reverse.dropWhile isJsWs).reverse

/-- One pass of the global replacement `/\s+/g → " "`: every maximal run of
whitespace becomes a single space. The Boolean flag records whether the
previous character was part of a whitespace run. -/
def collapseWsAux : Bool → Str → Str
  | _, [] => []
  | prevWs, c :: rest =>
    if isJsWs c then
      if prevWs then collapseWsAux true rest
      else ' ' :: collapseWsAux true rest
    else c :: collapseWsAux false rest

/-- `s.replace(/\s+/g, " ")`. -/
def collapseWs (l : Str) : Str := collapseWsAux false l

/-- Index of the last `'\n'` in a list, if any. -/
def lastNl (l : Str) : Option Nat :=
  match l.reverse.findIdx? (· = '\n') with
  | some i => some (l.length - 1 - i)
  | none => none

/-- After the regex `/\n\s*\n/` has consumed a first `'\n'`, try to match
`\s*\n` against the remainder: the greedy, backtracking `\s*` succeeds
exactly when the maximal whitespace prefix contains a `'\n'`, consuming up to
and including the last such `'\n'`. Returns the unconsumed remainder. -/
def nsnSplit (rest : Str) : Option Str :=
  match lastNl (rest.takeWhile isJsWs) with
  | some k => some (rest.drop (k + 1))
  | none => none

/-- Fueled worker for `s.replace(/\n\s*\n/g, "\n\n")`; the fuel (one unit per
consumed character suffices) keeps the recursion structural so that the
definition evaluates inside the kernel. With fuel `0` the remainder is
returned unchanged. -/
def replaceNlF : Nat → Str → Str
  | 0, l => l
  | _ + 1, [] => []
  | fuel + 1, c :: rest =>
    if c = '\n' then
      match nsnSplit rest with
      | some rest' => '\n' :: '\n' :: replaceNlF fuel rest'
      | none => c :: replaceNlF fuel rest
    else c :: replaceNlF fuel rest

/-- `s.replace(/\n\s*\n/g, "\n\n")`. -/
def replaceNl (l : Str) : Str := replaceNlF l.length l

/-- `cleanText` from src/services/html-parser.ts:
`text.replace(/\s+/g, " ").replace(/\n\s*\n/g, "\n\n").trim()`. -/
def cleanText (l : Str) : Str := jsTrim (replaceNl (collapseWs l))

/-- Substring containment, as JavaScript regex/`includes` sees it. -/
def containsSub (pat : Str) (l : Str) : Bool :=
  match l with
  | [] => pat.isEmpty
  | _ :: rest => pat.isPrefixOf l || containsSub pat rest

/-! Properties of the text pipeline (claim C9). -/

/-- Adjacent characters are never both whitespace. -/
def wsRel (a b : Char) : Prop := ¬(isJsWs a = true ∧ isJsWs b = true)

/-- A string in the image of `collapseWs`: its only whitespace character is
the plain space, and whitespace characters are never adjacent. -/
def Collapsed (l : Str) : Prop :=
  (∀ c ∈ l, isJsWs c = true → c = ' ') ∧ List.Chain' wsRel l

/-- The head, if any, is not whitespace. -/
def HeadNW (l : Str) : Prop := ∀ c, l.head? = some c → isJsWs c = false

theorem headNW_nil : HeadNW [] := by intro c h; cases h

theorem collapseWsAux_cons_ws_t {a : Char} (ha : isJsWs a = true) (rest : Str) :
    collapseWsAux true (a :: rest) = collapseWsAux true rest := by
  simp [collapseWsAux, ha]

theorem collapseWsAux_cons_ws_f {a : Char} (ha : isJsWs a = true) (rest : Str) :
    collapseWsAux false (a :: rest) = ' ' :: collapseWsAux true rest := by
  simp [collapseWsAux, ha]

theorem collapseWsAux_cons_nw {a : Char} (ha : isJsWs a = false) (b : Bool)
    (rest : Str) : collapseWsAux b (a :: rest) = a :: collapseWsAux false rest := by
  simp [collapseWsAux, ha]

theorem mem_collapseWsAux_ws {l : Str} :
    ∀ {b c}, c ∈ collapseWsAux b l → isJsWs c = true → c = ' ' := by
  induction l with
  | nil => intro b c h; simp [collapseWsAux] at h
  | cons a rest ih =>
    intro b c h hws
    by_cases ha : isJsWs a = true
    · cases b with
      | true => rw [collapseWsAux_cons_ws_t ha] at h; exact ih h hws
      | false =>
        rw [collapseWsAux_cons_ws_f ha] at h
        rcases List.mem_cons.1 h with h1 | h1
        · exact h1
        · exact ih h1 hws
    · rw [collapseWsAux_cons_nw (Bool.eq_false_iff.2 ha)] at h
      rcases List.mem_cons.1 h with h1 | h1
      · exact absurd (h1 ▸ hws) ha
      · exact ih h1 hws

theorem collapseWsAux_chain (l : Str) :
    ∀ b, List.Chain' wsRel (collapseWsAux b l) ∧
      (b = true → HeadNW (collapseWsAux b l)) := by
  induction l with
  | nil => intro b; exact ⟨List.chain'_nil, fun _ c h => by cases h⟩
  | cons a rest ih =>
    intro b
    by_cases ha : isJsWs a = true
    · cases b with
      | true => rw [collapseWsAux_cons_ws_t ha]; exact ih true
      | false =>
        rw [collapseWsAux_cons_ws_f ha]
        constructor
        · refine List.chain'_cons'.2 ⟨?_, (ih true).1⟩
          intro y hy
          have hnw : isJsWs y = false := (ih true).2 rfl y hy
          intro hc
          rw [hnw] at hc
          exact Bool.false_ne_true hc.2
        · intro h; cases h
    · have ha' : isJsWs a = false := Bool.eq_false_iff.2 ha
      rw [collapseWsAux_cons_nw ha']
      constructor
      · refine List.chain'_cons'.2 ⟨?_, (ih false).1⟩
        intro y _ hc
        exact ha hc.1
      · intro _ c h
        rw [List.head?_cons, Option.some.injEq] at h
        rw [← h]
        exact ha'

theorem collapsed_collapseWs (l : Str) : Collapsed (collapseWs l) :=
  ⟨fun _ h => mem_collapseWsAux_ws h, (collapseWsAux_chain l false).1⟩

theorem collapseWsAux_eq_self {l : Str} :
    ∀ b, Collapsed l → (b = true → HeadNW l) → collapseWsAux b l = l := by
  induction l with
  | nil => intro b _ _; rfl
  | cons a rest ih =>
    intro b hc hb
    have hrest : Collapsed rest :=
      ⟨fun c h => hc.1 c (List.mem_cons_of_mem a h), hc.2.tail⟩
    by_cases ha : isJsWs a = true
    · have haSp : a = ' ' := hc.1 a (List.mem_cons_self a rest) ha
      have hhead : HeadNW rest := by
        intro c h
        cases hv : isJsWs c with
        | false => rfl
        | true => exact absurd ⟨ha, hv⟩ ((List.chain'_cons'.1 hc.2).1 c h)
      cases b with
      | true =>
        have := hb rfl a List.head?_cons
        rw [this] at ha
        cases ha
      | false =>
        rw [collapseWsAux_cons_ws_f ha, ih true hrest (fun _ => hhead), haSp]
    · rw [collapseWsAux_cons_nw (Bool.eq_false_iff.2 ha),
        ih false hrest (fun h => by cases h)]

theorem replaceNlF_noop {l : Str} (h : ∀ c ∈ l, c ≠ '\n') :
    ∀ fuel, replaceNlF fuel l = l := by
  induction l with
  | nil => intro fuel; cases fuel <;> rfl
  | cons a rest ih =>
    intro fuel
    cases fuel with
    | zero => rfl
    | succ f =>
      have ha : a ≠ '\n' := h a (List.mem_cons_self a rest)
      simp only [replaceNlF, ha, if_false]
      rw [ih (fun c hc => h c (List.mem_cons_of_mem a hc)) f]

theorem replaceNl_noop {l : Str} (h : ∀ c ∈ l, c ≠ '\n') : replaceNl l = l :=
  replaceNlF_noop h l.length

theorem collapsed_no_nl {l : Str} (h : ∀ c ∈ l, isJsWs c = true → c = ' ') :
    ∀ c ∈ l, c ≠ '\n' := by
  intro c hc hnl
  have : c = ' ' := h c hc (by rw [hnl]; decide)
  rw [hnl] at this
  cases this

theorem mem_jsTrim {l : Str} {c : Char} (h : c ∈ jsTrim l) : c ∈ l := by
  unfold jsTrim at h
  rw [List.mem_reverse] at h
  have h2 := (List.dropWhile_suffix isJsWs).sublist.mem h
  rw [List.mem_reverse] at h2
  exact (List.dropWhile_suffix isJsWs).sublist.mem h2

theorem wsRel_flip : flip wsRel = wsRel := by
  funext a b
  simp only [flip, wsRel, eq_iff_iff]
  constructor
  · intro h hc; exact h ⟨hc.2, hc.1⟩
  · intro h hc; exact h ⟨hc.2, hc.1⟩

theorem chain'_jsTrim {l : Str} (h : List.Chain' wsRel l) :
    List.Chain' wsRel (jsTrim l) := by
  unfold jsTrim
  have h1 : List.Chain' wsRel (l.dropWhile isJsWs) :=
    h.suffix (List.dropWhile_suffix isJsWs)
  have h2 : List.Chain' wsRel (l.dropWhile isJsWs).reverse := by
    rw [List.chain'_reverse, wsRel_flip]; exact h1
  have h3 : List.Chain' wsRel ((l.dropWhile isJsWs).reverse.dropWhile isJsWs) :=
    h2.suffix (List.dropWhile_suffix isJsWs)
  rw [List.chain'_reverse, wsRel_flip]
  exact h3

theorem headNW_dropWhile (l : Str) : HeadNW (l.dropWhile isJsWs) := by
  induction l with
  | nil => exact headNW_nil
  | cons a rest ih =>
    by_cases ha : isJsWs a = true
    · simpa [List.dropWhile, ha] using ih
    · intro c h
      simp only [List.dropWhile, ha, Bool.false_eq_true, if_false,
        List.head?_cons, Option.some.injEq] at h ⊢
      rw [← h]
      exact Bool.eq_false_iff.2 ha

theorem dropWhile_eq_self_of_headNW {l : Str} (h : HeadNW l) :
    l.dropWhile isJsWs = l := by
  cases l with
  | nil => rfl
  | cons a rest =>
    have : isJsWs a = false := h a List.head?_cons
    simp [List.dropWhile, this]

theorem headNW_of_isPrefix {l p : Str} (hp : p <+: l) (h : HeadNW l) :
    HeadNW p := by
  obtain ⟨t, rfl⟩ := hp
  cases p with
  | nil => exact headNW_nil
  | cons a rest =>
    intro c hc
    rw [List.head?_cons, Option.some.injEq] at hc
    exact hc ▸ h a (by rw [List.cons_append, List.head?_cons])

theorem headNW_jsTrim (l : Str) : HeadNW (jsTrim l) := by
  unfold jsTrim
  have hsuf : (l.dropWhile isJsWs).reverse.dropWhile isJsWs <:+
      (l.dropWhile isJsWs).reverse := List.dropWhile_suffix isJsWs
  have hpre : ((l.dropWhile isJsWs).reverse.dropWhile isJsWs).reverse <+:
      l.dropWhile isJsWs := by
    have := List.reverse_prefix.2 hsuf
    rwa [List.reverse_reverse] at this
  exact headNW_of_isPrefix hpre (headNW_dropWhile l)

theorem headNW_reverse_jsTrim (l : Str) : HeadNW (jsTrim l).reverse := by
  unfold jsTrim
  rw [List.reverse_reverse]
  exact headNW_dropWhile _

theorem jsTrim_eq_self {l : Str} (h1 : HeadNW l) (h2 : HeadNW l.reverse) :
    jsTrim l = l := by
  unfold jsTrim
  rw [dropWhile_eq_self_of_headNW h1, dropWhile_eq_self_of_headNW h2,
    List.reverse_reverse]

theorem jsTrim_idem (l : Str) : jsTrim (jsTrim l) = jsTrim l :=
  jsTrim_eq_self (headNW_jsTrim l) (headNW_reverse_jsTrim l)

theorem collapsed_jsTrim {l : Str} (h : Collapsed l) : Collapsed (jsTrim l) :=
  ⟨fun c hc => h.1 c (mem_jsTrim hc), chain'_jsTrim h.2⟩

/-- C9: the Text-format normalization is idempotent: for every string `s`,
`cleanText (cleanText s) = cleanText s`. -/
theorem c9_cleanText_idempotent (s : Str) :
    cleanText (cleanText s) = cleanText s := by
  have hco : Collapsed (collapseWs s) := collapsed_collapseWs s
  have hnl1 : replaceNl (collapseWs s) = collapseWs s :=
    replaceNl_noop (collapsed_no_nl hco.1)
  have hT : cleanText s = jsTrim (collapseWs s) := by
    unfold cleanText; rw [hnl1]
  have hTcol : Collapsed (jsTrim (collapseWs s)) := collapsed_jsTrim hco
  have hfix : collapseWs (jsTrim (collapseWs s)) = jsTrim (collapseWs s) :=
    collapseWsAux_eq_self false hTcol (fun h => by cases h)
  have hnl2 : replaceNl (jsTrim (collapseWs s)) = jsTrim (collapseWs s) :=
    replaceNl_noop (collapsed_no_nl hTcol.1)
  rw [hT]
  unfold cleanText
  rw [hfix, hnl2, jsTrim_idem]

/-- Witness: a run of the idempotence theorem at a concrete string. -/
theorem c9_witness :
    cleanText (cleanText "a  b\n\nc".data) = cleanText "a  b\n\nc".data :=
  c9_cleanText_idempotent "a  b\n\nc".data

/-! The scope model (src scope.ts).

JavaScript runtime values reaching `validateScope` are modelled by `JsValue`;
`JsNum` models JS numbers as NaN, the infinities, or a finite rational (the
code only compares numbers, so IEEE-754 rounding is unobservable here). An
absent object property and the JS value `undefined` coincide (`objGet`
returning `none`), exactly as the code distinguishes them (`!== undefined`,
`"type" in scope`). -/

inductive JsNum where
  | nan
  | posInf
  | negInf
  | fin (q : ℚ)
deriving DecidableEq

inductive JsValue where
  | null
  | bool (b : Bool)
  | num (n : JsNum)
  | str (s : Str)
  | arr (elems : List JsValue)
  | obj (fields : List (Str × JsValue))

/-- JS property read `o[k]`: with duplicate keys the later entry wins; a
missing key reads as `undefined` (`none`). -/
def objGet (fields : List (Str × JsValue)) (k : Str) : Option JsValue :=
  List.lookup k fields.reverse

/-- JS truthiness: `undefined`, `null`, `false`, `0`, `NaN` and `""` are
falsy; every other value (including `[]` and `{}`) is truthy. -/
def jsTruthy : JsValue → Bool
  | .null => false
  | .bool b => b
  | .num .nan => false
  | .num (.fin q) => !(q = 0)
  | .num _ => true
  | .str s => !s.isEmpty
  | .arr _ => true
  | .obj _ => true

/-- ASCII decimal digit. -/
def isDigit (c : Char) : Bool := '0' ≤ c && c ≤ '9'

/-- Big-endian decimal value of a digit string. -/
def digitsVal (l : Str) : Nat :=
  l.foldl (fun acc c => acc * 10 + (c.toNat - 48)) 0

/-- Value of a digit string in base `b`, `none` if some character is not a
digit of that base (`0-9a-fA-F` prefix as appropriate). -/
def baseDigitsVal (b : Nat) (l : Str) : Option Nat :=
  l.foldl
    (fun acc c =>
      match acc with
      | none => none
      | some n =>
        let d : Option Nat :=
          if '0' ≤ c && c ≤ '9' then some (c.toNat - 48)
          else if 'a' ≤ c && c ≤ 'f' then some (c.toNat - 87)
          else if 'A' ≤ c && c ≤ 'F' then some (c.toNat - 55)
          else none
        match d with
        | some dv => if dv < b then some (n * b + dv) else none
        | none => none)
    (some 0)

/-- Decimal literal `digits [. digits] [e|E [+|-] digits]`, as accepted by JS
`Number()` after trimming and sign handling. -/
def parseDecLit (l : Str) : Option ℚ :=
  let ip := l.takeWhile isDigit
  let r1 := l.dropWhile isDigit
  let fp : Str := match r1 with
    | '.' :: r => r.takeWhile isDigit
    | _ => []
  let r2 : Str := match r1 with
    | '.' :: r => r.dropWhile isDigit
    | _ => r1
  if ip.isEmpty && fp.isEmpty then none
  else
    let mant : ℚ := (digitsVal ip : ℚ) + (digitsVal fp : ℚ) / (10 : ℚ) ^ fp.length
    match r2 with
    | [] => some mant
    | e :: r3 =>
      if e = 'e' || e = 'E' then
        let esgn : ℤ := match r3 with
          | '-' :: _ => -1
          | _ => 1
        let r4 : Str := match r3 with
          | '-' :: r => r
          | '+' :: r => r
          | r => r
        if !r4.isEmpty && r4.all isDigit then
          some (mant * (10 : ℚ) ^ (esgn * (digitsVal r4 : ℤ)))
        else none
      else none

/-- JS `Number(string)`: trim, empty → 0, `Infinity` forms, `0x`/`0o`/`0b`
radix literals (unsigned only), otherwise an optionally signed decimal
literal; anything else is NaN. -/
def strToNum (s : Str) : JsNum :=
  let t := jsTrim s
  if t.isEmpty then .fin 0
  else if t = "Infinity".data || t = "+Infinity".data then .posInf
  else if t = "-Infinity".data then .negInf
  else if "0x".data.isPrefixOf t || "0X".data.isPrefixOf t then
    match baseDigitsVal 16 (t.drop 2) with
    | some n => if (t.drop 2).isEmpty then .nan else .fin n
    | none => .nan
  else if "0o".data.isPrefixOf t || "0O".data.isPrefixOf t then
    match baseDigitsVal 8 (t.drop 2) with
    | some n => if (t.drop 2).isEmpty then .nan else .fin n
    | none => .nan
  else if "0b".data.isPrefixOf t || "0B".data.isPrefixOf t then
    match baseDigitsVal 2 (t.drop 2) with
    | some n => if (t.drop 2).isEmpty then .nan else .fin n
    | none => .nan
  else
    let sgn : ℚ := match t with
      | '-' :: _ => -1
      | _ => 1
    let t1 : Str := match t with
      | '-' :: r => r
      | '+' :: r => r
      | r => r
    match parseDecLit t1 with
    | some q => .fin (sgn * q)
    | none => .nan

/-- JS `Number(value)` coercion as exercised by `validateScope`
(`Number(scope.timeout)`): primitives convert directly; an array converts via
its joined string, which for an empty array is `""` (0), for a singleton is
the conversion of its single element (except booleans and objects, whose
string images are not numeric), and is never numeric for longer arrays (the
joined string contains a comma); plain objects convert to NaN. -/
def toNumber : JsValue → JsNum
  | .null => .fin 0
  | .bool b => .fin (if b then 1 else 0)
  | .num n => n
  | .str s => strToNum s
  | .arr [] => .fin 0
  | .arr [.bool _] => .nan
  | .arr [.obj _] => .nan
  | .arr [v] => toNumber v
  | .arr _ => .nan
  | .obj _ => .nan
termination_by structural v => v

/-- Decimal digits of a natural number (fueled worker). -/
def natToStrAux : Nat → Nat → Str
  | 0, _ => []
  | f + 1, n => if n = 0 then [] else natToStrAux f (n / 10) ++ [Char.ofNat (48 + n % 10)]

/-- Decimal notation of a natural number. -/
def natToStr (n : Nat) : Str := if n = 0 then ['0'] else natToStrAux (n + 1) n

/-- Decimal notation of an integer. -/
def intToStr (z : ℤ) : Str :=
  if z < 0 then '-' :: natToStr z.natAbs else natToStr z.natAbs

/-- Display string of a `JsNum`. Exact for NaN, the infinities and integers;
for non-integral rationals the JS shortest-double rendering is approximated
by `num/den` (no claim evaluates this branch). -/
def jsNumToStr : JsNum → Str
  | .nan => "NaN".data
  | .posInf => "Infinity".data
  | .negInf => "-Infinity".data
  | .fin q => if q.den = 1 then intToStr q.num else intToStr q.num ++ '/' :: natToStr q.den

mutual

/-- JS `String(value)` coercion, used by `Array.prototype.join` and template
literals in the code under study. -/
def jsToString : JsValue → Str
  | .null => "null".data
  | .bool b => if b then "true".data else "false".data
  | .num n => jsNumToStr n
  | .str s => s
  | .arr es => jsJoinComma es
  | .obj _ => "[object Object]".data

/-- `Array.prototype.toString`: join with `","`, rendering `null` (and
`undefined`, which `JsValue` does not represent) as the empty string and all
other elements via `String()`. -/
def jsJoinComma : List JsValue → Str
  | [] => []
  | [.null] => []
  | [v] => jsToString v
  | .null :: rest => ',' :: jsJoinComma rest
  | v :: rest => jsToString v ++ ',' :: jsJoinComma rest

end

/-- The validated scope variants (scope.ts `Scope`). `selector` keeps the
runtime include/exclude arrays exactly as the code does (`validateScope`
casts without inspecting the elements, so non-strings can flow through);
`fn` models the `function` variant (`code`, validated `timeout`);
`handler` carries the id. -/
inductive Scope where
  | main
  | full
  | auto
  | selector (incl : List JsValue) (excl : Option (List JsValue))
  | fn (code : Str) (timeout : Option ℚ)
  | handler (id : Str)

/-- Error text of `validateScope` for a bad timeout. -/
def fnTimeoutMsg : Str := "Function scope timeout must be between 1 and 60000 ms".data

/-- Error text of `validateScope` for a bad include list. -/
def selIncludeMsg : Str := "Selector scope requires non-empty 'include' array".data

/-- Error text of `validateScope` for a non-array exclude. -/
def selExcludeMsg : Str := "Selector scope 'exclude' must be an array".data

/-- Error text of `validateScope` for a bad function code. -/
def fnCodeMsg : Str := "Function scope requires non-empty 'code' string".data

/-- Error text of `validateScope` for a bad handler id. -/
def handlerIdMsg : Str := "Handler scope requires non-empty 'id' string".data

/-- `validateScope`, selector case. -/
def validateSelectorScope (fields : List (Str × JsValue)) : Except Str Scope :=
  match objGet fields "include".data with
  | some (.arr incl) =>
    if incl.isEmpty then .error selIncludeMsg
    else
      match objGet fields "exclude".data with
      | none => .ok (.selector incl none)
      | some ev =>
        if jsTruthy ev then
          match ev with
          | .arr ex => .ok (.selector incl (some ex))
          | _ => .error selExcludeMsg
        else .ok (.selector incl none)
  | _ => .error selIncludeMsg

/-- `validateScope`, function case: `Number(scope.timeout)` is range-checked
(`isNaN(t) || t < 1 || t > 60000`) but no integrality test is performed. -/
def validateFunctionScope (fields : List (Str × JsValue)) : Except Str Scope :=
  match objGet fields "code".data with
  | some (.str c) =>
    if (jsTrim c).isEmpty then .error fnCodeMsg
    else
      match objGet fields "timeout".data with
      | none => .ok (.fn c none)
      | some tv =>
        match toNumber tv with
        | .fin q => if q < 1 ∨ q > 60000 then .error fnTimeoutMsg else .ok (.fn c (some q))
        | _ => .error fnTimeoutMsg
  | _ => .error fnCodeMsg

/-- `validateScope`, handler case. -/
def validateHandlerScope (fields : List (Str × JsValue)) : Except Str Scope :=
  match objGet fields "id".data with
  | some (.str i) => if (jsTrim i).isEmpty then .error handlerIdMsg else .ok (.handler i)
  | _ => .error handlerIdMsg

/-- `validateScope`, dispatch on the `type` field (JS `switch` compares with
strict equality, so only string tags match the cases). -/
def validateScopeTyped (fields : List (Str × JsValue)) (tv : JsValue) : Except Str Scope :=
  match tv with
  | .str t =>
    if t = "selector".data then validateSelectorScope fields
    else if t = "function".data then validateFunctionScope fields
    else if t = "handler".data then validateHandlerScope fields
    else .error ("Unknown scope type: \"".data ++ jsToString tv ++ "\"".data)
  | _ => .error ("Unknown scope type: \"".data ++ jsToString tv ++ "\"".data)

/-- `validateScope` from scope.ts: strings must be one of the three simple
scopes; only objects (including arrays, whose `typeof` is `"object"` but
which lack a `type` property) proceed to the tagged dispatch. -/
def validateScope (v : JsValue) : Except Str Scope :=
  match v with
  | .str s =>
    if s = "main".data then .ok .main
    else if s = "full".data then .ok .full
    else if s = "auto".data then .ok .auto
    else .error ("Invalid scope string: \"".data ++ s ++ "\"".data)
  | .obj fields =>
    match objGet fields "type".data with
    | none => .error "Scope object must have a 'type' field".data
    | some tv => validateScopeTyped fields tv
  | .arr _ => .error "Scope object must have a 'type' field".data
  | _ => .error "Scope must be a string or object".data

/-- `String.prototype.split(",")`. -/
def splitOnCommaAux (acc : Str) : Str → List Str
  | [] => [acc.reverse]
  | c :: rest =>
    if c = ',' then acc.reverse :: splitOnCommaAux [] rest
    else splitOnCommaAux (c :: acc) rest

/-- `String.prototype.split(",")`. -/
def splitOnComma (l : Str) : List Str := splitOnCommaAux [] l

/-- Error text of `parseScopeArg` for an unrecognized argument (the original
interpolates the argument). -/
def invalidScopeMsg (arg : Str) : Str :=
  "Invalid scope: \"".data ++ arg ++
    "\". Must be \"main\", \"full\", \"auto\", \"selector:...\", or a JSON object.".data

/-- Error text of `parseScopeArg` for an empty selector shorthand. -/
def emptySelectorMsg : Str := "Selector scope requires at least one include selector".data

/-- `parseScopeArg` from scope.ts. `JSON.parse` is an engine primitive and is
passed in as `jsonParse` (a thrown parse error propagates, which `Except`
models); none of the theorems below depend on its behaviour because no string
produced by `scopeToString` starts with `{`. -/
def parseScopeArg (jsonParse : Str → Except Str JsValue) (arg : Str)
    (excludeArg : Option Str) : Except Str Scope :=
  if arg = "main".data then .ok .main
  else if arg = "full".data then .ok .full
  else if arg = "auto".data then .ok .auto
  else if "\x7b".data.isPrefixOf arg then
    match jsonParse arg with
    | .ok v => validateScope v
    | .error e => .error e
  else if "selector:".data.isPrefixOf arg then
    let selectorPart := arg.drop "selector:".data.length
    let incl := ((splitOnComma selectorPart).map jsTrim).filter (fun s => !s.isEmpty)
    if incl.isEmpty then .error emptySelectorMsg
    else
      let excl : Option (List JsValue) :=
        match excludeArg with
        | some e =>
          if e.isEmpty then none
          else some ((((splitOnComma e).map jsTrim).filter (fun s => !s.isEmpty)).map JsValue.str)
        | none => none
      .ok (.selector (incl.map JsValue.str) excl)
  else .error (invalidScopeMsg arg)

/-- `scopeToString` from scope.ts (a display form for logging). -/
def scopeToString : Scope → Str
  | .main => "main".data
  | .full => "full".data
  | .auto => "auto".data
  | .selector incl _ => "selector:[".data ++ jsJoinComma incl ++ "]".data
  | .fn _ _ => "function".data
  | .handler i => "handler:".data ++ i

/-- A stand-in for `JSON.parse`; the round-trip theorems hold for every such
function because no `scopeToString` output starts with `{`. -/
def jsonParseUnused : Str → Except Str JsValue :=
  fun _ => .error "JSON.parse not reached".data

/-- C2, counterexample: the round trip fails for Handler scopes. For
`S = Handler "x"`, `scopeToString S = "handler:x"`, which `parseScopeArg`
rejects as an invalid scope instead of returning `S`. (The Selector case
fails as well: see `c2_roundtrip_simple`, whose last conjunct shows the
emitted brackets ending up inside the parsed selector.) -/
theorem c2_counterexample :
    parseScopeArg jsonParseUnused (scopeToString (Scope.handler "x".data)) none
      ≠ Except.ok (Scope.handler "x".data) := by
  intro h
  have he : parseScopeArg jsonParseUnused (scopeToString (Scope.handler "x".data)) none
      = Except.error (invalidScopeMsg "handler:x".data) := rfl
  rw [he] at h
  exact Except.noConfusion h

/-- C2 (amended): `parseScopeArg (scopeToString S) = S` holds precisely for
the simple scopes `main`, `full`, `auto` (for any JSON parser and any exclude
argument). It fails for every Handler scope (the emitted `handler:<id>`
string is rejected as an invalid scope) and for Selector scopes (the emitted
`[`/`]` brackets become part of the parsed include selectors, as the last
conjunct shows on `include = ["a"]`). -/
theorem c2_roundtrip_simple :
    ∀ (jp : Str → Except Str JsValue) (ex : Option Str),
      parseScopeArg jp (scopeToString Scope.main) ex = Except.ok Scope.main ∧
      parseScopeArg jp (scopeToString Scope.full) ex = Except.ok Scope.full ∧
      parseScopeArg jp (scopeToString Scope.auto) ex = Except.ok Scope.auto ∧
      (∀ i : Str, parseScopeArg jp (scopeToString (Scope.handler i)) ex
        = Except.error (invalidScopeMsg ("handler:".data ++ i))) ∧
      parseScopeArg jp (scopeToString (Scope.selector [JsValue.str "a".data] none)) none
        = Except.ok (Scope.selector [JsValue.str "[a]".data] none) := by
  intro jp ex
  refine ⟨rfl, rfl, rfl, ?_, rfl⟩
  intro i
  have hc : scopeToString (Scope.handler i)
      = 'h' :: 'a' :: 'n' :: 'd' :: 'l' :: 'e' :: 'r' :: ':' :: i := rfl
  rw [hc]
  simp +decide [parseScopeArg, List.isPrefixOf, invalidScopeMsg]

/-- Witness for the amended C2 round-trip theorem at concrete arguments. -/
theorem c2_witness :
    parseScopeArg jsonParseUnused (scopeToString Scope.main) none = Except.ok Scope.main ∧
    parseScopeArg jsonParseUnused (scopeToString (Scope.handler "news".data)) none
      = Except.error (invalidScopeMsg ("handler:".data ++ "news".data)) :=
  ⟨(c2_roundtrip_simple jsonParseUnused none).1,
   (c2_roundtrip_simple jsonParseUnused none).2.2.2.1 "news".data⟩

/-- The function-scope object `{type: "function", code: c, timeout: t}`. -/
def fnObj (c : Str) (t : JsValue) : JsValue :=
  .obj [("type".data, .str "function".data), ("code".data, .str c), ("timeout".data, t)]

/-- C6, counterexample: the claim requires the timeout to be an integer, but
`validateScope` accepts the non-integral 5.5 (`mkRat 11 2`) and carries it
into the resulting Function scope. -/
theorem c6_counterexample :
    validateScope (fnObj "x".data (.num (.fin (mkRat 11 2))))
        = Except.ok (Scope.fn "x".data (some (mkRat 11 2))) ∧
      (mkRat 11 2).den ≠ 1 :=
  ⟨rfl, by decide⟩

/-- C6 (amended): for `{type: "function", code: c, timeout: t}` with
non-blank `c`, validation succeeds iff `Number(t)` is a finite value in
`[1, 60000]` — integrality is not required — and the accepted scope carries
exactly that coerced number; otherwise the timeout error is raised. -/
theorem c6_timeout_range (c : Str) (t : JsValue) (hc : (jsTrim c).isEmpty = false) :
    validateScope (fnObj c t) =
      (match toNumber t with
       | .fin q =>
         if q < 1 ∨ q > 60000 then Except.error fnTimeoutMsg
         else Except.ok (Scope.fn c (some q))
       | _ => Except.error fnTimeoutMsg) ∧
    ∀ q : ℚ, validateScope (fnObj c t) = Except.ok (Scope.fn c (some q)) →
      1 ≤ q ∧ q ≤ 60000 ∧ toNumber t = JsNum.fin q := by
  have h1 : validateScope (fnObj c t) =
      (if (jsTrim c).isEmpty
       then Except.error fnCodeMsg
       else match toNumber t with
            | .fin q =>
              if q < 1 ∨ q > 60000 then Except.error fnTimeoutMsg
              else Except.ok (Scope.fn c (some q))
            | _ => Except.error fnTimeoutMsg) := rfl
  have hv : validateScope (fnObj c t) =
      (match toNumber t with
       | .fin q =>
         if q < 1 ∨ q > 60000 then Except.error fnTimeoutMsg
         else Except.ok (Scope.fn c (some q))
       | _ => Except.error fnTimeoutMsg) := by
    rw [h1, hc]
    simp only [Bool.false_eq_true, if_false]
  refine ⟨hv, ?_⟩
  intro q hq
  rw [hv] at hq
  cases htn : toNumber t with
  | fin r =>
    rw [htn] at hq
    have hq2 : (if r < 1 ∨ r > 60000 then Except.error fnTimeoutMsg
        else Except.ok (Scope.fn c (some r))) = Except.ok (Scope.fn c (some q)) := hq
    by_cases hr : r < 1 ∨ r > 60000
    · rw [if_pos hr] at hq2; exact Except.noConfusion hq2
    · rw [if_neg hr] at hq2
      push_neg at hr
      have hqr : r = q := by
        injection hq2 with h1
        injection h1 with _ h2
        injection h2
      rw [← hqr]
      exact ⟨hr.1, hr.2, rfl⟩
  | nan => rw [htn] at hq; exact Except.noConfusion hq
  | posInf => rw [htn] at hq; exact Except.noConfusion hq
  | negInf => rw [htn] at hq; exact Except.noConfusion hq

/-- Witness: the amended C6 theorem applied at code `"x"` and timeout `5`. -/
theorem c6_witness :
    validateScope (fnObj "x".data (.num (.fin 5)))
      = Except.ok (Scope.fn "x".data (some 5)) := by
  rw [(c6_timeout_range "x".data (.num (.fin 5)) (by decide)).1]
  rfl

/-- A selector-scope object `{type: "selector", include: <incArg>, ...rest}`. -/
def selObj (incArg : JsValue) (rest : List (Str × JsValue)) : JsValue :=
  .obj ([("type".data, .str "selector".data), ("include".data, incArg)] ++ rest)

/-- C7, counterexample: the claim requires every include element to be a
string, but `validateScope` accepts `include: [1]` unchanged (the code casts
`scope.include as string[]` without inspecting the elements). -/
theorem c7_counterexample :
    validateScope (selObj (.arr [.num (.fin 1)]) [])
      = Except.ok (Scope.selector [JsValue.num (.fin 1)] none) := rfl

/-- C7 (amended): the selector case of `validateScope` succeeds exactly when
`include` is a non-empty array — its elements are NOT type-checked — and
`exclude`, when present and truthy, is an array (elements again unchecked);
a falsy `exclude` (for example the empty string) is silently dropped, a
truthy non-array `exclude` is an error, and a missing or empty or non-array
`include` is an error. -/
theorem c7_selector_validation (incl excl : List JsValue) (hne : incl ≠ []) :
    validateScope (selObj (.arr incl) []) = Except.ok (Scope.selector incl none) ∧
    validateScope (selObj (.arr incl) [("exclude".data, .arr excl)])
      = Except.ok (Scope.selector incl (some excl)) ∧
    validateScope (selObj (.arr incl) [("exclude".data, .str "x".data)])
      = Except.error selExcludeMsg ∧
    validateScope (selObj (.arr incl) [("exclude".data, .str [])])
      = Except.ok (Scope.selector incl none) ∧
    validateScope (selObj (.arr []) []) = Except.error selIncludeMsg ∧
    validateScope (selObj (.str "main".data) []) = Except.error selIncludeMsg := by
  have hni : incl.isEmpty = false := by
    cases incl with
    | nil => exact absurd rfl hne
    | cons a l => rfl
  refine ⟨?_, ?_, ?_, ?_, rfl, rfl⟩
  · have h : validateScope (selObj (.arr incl) []) =
        (if incl.isEmpty then Except.error selIncludeMsg
         else Except.ok (Scope.selector incl none)) := rfl
    rw [h, hni]
    simp only [Bool.false_eq_true, if_false]
  · have h : validateScope (selObj (.arr incl) [("exclude".data, .arr excl)]) =
        (if incl.isEmpty then Except.error selIncludeMsg
         else Except.ok (Scope.selector incl (some excl))) := rfl
    rw [h, hni]
    simp only [Bool.false_eq_true, if_false]
  · have h : validateScope (selObj (.arr incl) [("exclude".data, .str "x".data)]) =
        (if incl.isEmpty then Except.error selIncludeMsg
         else Except.error selExcludeMsg) := rfl
    rw [h, hni]
    simp only [Bool.false_eq_true, if_false]
  · have h : validateScope (selObj (.arr incl) [("exclude".data, .str [])]) =
        (if incl.isEmpty then Except.error selIncludeMsg
         else Except.ok (Scope.selector incl none)) := rfl
    rw [h, hni]
    simp only [Bool.false_eq_true, if_false]

/-- Witness: the amended C7 theorem applied at `include = ["article"]` and
`exclude = [".ads"]`. -/
theorem c7_witness :
    validateScope (selObj (.arr [.str "article".data]) [])
      = Except.ok (Scope.selector [JsValue.str "article".data] none) ∧
    validateScope (selObj (.arr [.str "article".data])
        [("exclude".data, .arr [.str ".ads".data])])
      = Except.ok (Scope.selector [JsValue.str "article".data]
          (some [JsValue.str ".ads".data])) :=
  ⟨(c7_selector_validation [JsValue.str "article".data] [JsValue.str ".ads".data]
      (by simp)).1,
   (c7_selector_validation [JsValue.str "article".data] [JsValue.str ".ads".data]
      (by simp)).2.1⟩

/-! The sandbox pre-evaluation syntax gate (sandbox.ts
`validateFunctionSyntax` / `runScopeFunction`). The JS regexes are expanded
into explicit scanners with JavaScript semantics: `.` does not cross line
terminators, `\s` is `isJsWs`, `\b` is a word/non-word transition. -/

/-- Regex word character (`\w`): letters, digits, underscore. -/
def isWordChar (c : Char) : Bool :=
  ('a' ≤ c && c ≤ 'z') || ('A' ≤ c && c ≤ 'Z') || ('0' ≤ c && c ≤ '9') || c = '_'

/-- JS regex line terminators, which `.` does not match. -/
def isLineTerm (c : Char) : Bool :=
  c = '\n' || c = '\r' || c = '\u2028' || c = '\u2029'

/-- After a candidate `)` of the arrow regex: `\s*` then `=>`. Because `=`
is not whitespace, backtracking over the greedy `\s*` reduces to skipping
the maximal whitespace run. -/
def arrowTail (l : Str) : Bool := "=>".data.isPrefixOf (l.dropWhile isJsWs)

/-- Scanning part of `/^\(.*\)\s*=>/` after the opening parenthesis: some
`)` within the first line (the `.*` may itself contain `)`) must be followed
by `\s*=>`. -/
def arrowScan : Str → Bool
  | [] => false
  | c :: rest =>
    if c = ')' && arrowTail rest then true
    else if isLineTerm c then false
    else arrowScan rest

/-- `/^\(.*\)\s*=>/` — arrow function header. -/
def matchesArrowStart (t : Str) : Bool :=
  match t with
  | '(' :: rest => arrowScan rest
  | _ => false

/-- `/^function\s*\(/` — function expression header. -/
def matchesFunctionStart (t : Str) : Bool :=
  "function".data.isPrefixOf t &&
    (match (t.drop 8).dropWhile isJsWs with
     | '(' :: _ => true
     | _ => false)

/-- `/^\(\s*function/` — IIFE-style header. -/
def matchesParenFunction (t : Str) : Bool :=
  match t with
  | '(' :: rest => "function".data.isPrefixOf (rest.dropWhile isJsWs)
  | _ => false

/-- A `\b` immediately before a word character: satisfied at the start of
the string or after a non-word character. -/
def boundaryOk : Option Char → Bool
  | none => true
  | some p => !isWordChar p

/-- `/\bfetch\s*\(/` — scan with the previous character threaded for the
word boundary. -/
def fetchScan (prev : Option Char) : Str → Bool
  | [] => false
  | c :: rest =>
    (boundaryOk prev && "fetch".data.isPrefixOf (c :: rest) &&
      (match ((c :: rest).drop 5).dropWhile isJsWs with
       | '(' :: _ => true
       | _ => false)) ||
    fetchScan (some c) rest

/-- `/\bawait\s+fetch/` — at least one whitespace character between the two
words; since `f` is not whitespace, the greedy `\s+` reduces to the maximal
whitespace run. -/
def awaitFetchScan (prev : Option Char) : Str → Bool
  | [] => false
  | c :: rest =>
    (boundaryOk prev && "await".data.isPrefixOf (c :: rest) &&
      (match (c :: rest).drop 5 with
       | d :: _ => isJsWs d
       | [] => false) &&
      "fetch".data.isPrefixOf (((c :: rest).drop 5).dropWhile isJsWs)) ||
    awaitFetchScan (some c) rest

/-- Rejection text when the code does not start like a function expression. -/
def arrowErrMsg : Str :=
  "Function must be an arrow function \"(api, url) => ...\" or function expression \"function(api, url) \x7b ... \x7d\"".data

/-- Rejection text for `document.` references. -/
def docApiMsg : Str := "Use the api object methods: api.$(), api.$$(), etc.".data

/-- Rejection text for `fetch(` / `await fetch` references. -/
def fetchMsg : Str := "Network access is not allowed in sandbox functions".data

/-- `validateFunctionSyntax` from sandbox.ts: all patterns are tested against
the trimmed code; the unsupported-API patterns are tried in source order
(`document.`, then `fetch(`, then `await fetch`), returning the first match's
suggestion. -/
def validateFunctionSyntax (code : Str) : Option Str :=
  if !(matchesArrowStart (jsTrim code) || matchesFunctionStart (jsTrim code) ||
      matchesParenFunction (jsTrim code)) then some arrowErrMsg
  else if containsSub "document.".data (jsTrim code) then some docApiMsg
  else if fetchScan none (jsTrim code) then some fetchMsg
  else if awaitFetchScan none (jsTrim code) then some fetchMsg
  else none

/-- Observable outcome of `runScopeFunction` with respect to the sandbox:
either the pre-evaluation syntax check rejects — the function returns
`{ok: false, error}` before the DOM bridge is built and before any code is
evaluated — or control proceeds into the bridge/sandbox pipeline. -/
inductive ScopeFnOutcome where
  | rejected (error : Str)
  | sandboxed

/-- The gating prefix of `runScopeFunction` from sandbox.ts. -/
def runScopeFunctionGate (functionCode : Str) : ScopeFnOutcome :=
  match validateFunctionSyntax functionCode with
  | some e => .rejected e
  | none => .sandboxed

/-- C8, counterexample: the claim demands rejection of any code containing
the substring `"fetch("`, but the source regex `/\bfetch\s*\(/` requires a
word boundary, so `"(a, u) => myfetch(u)"` — which contains `"fetch("` —
passes the validation and reaches the sandbox. -/
theorem c8_counterexample :
    containsSub "fetch(".data "(a, u) => myfetch(u)".data = true ∧
    runScopeFunctionGate "(a, u) => myfetch(u)".data = ScopeFnOutcome.sandboxed :=
  ⟨by decide, rfl⟩

/-- C8 (amended): `runScopeFunction` returns `{ok: false, error}` without
touching the sandbox whenever the trimmed code fails all three start
patterns, or matches `/document\./` (plain substring), `/\bfetch\s*\(/` or
`/\bawait\s+fetch/` (substring occurrences at a word boundary, with regex
whitespace allowed before `(`). -/
theorem c8_reject (code : Str)
    (h : (matchesArrowStart (jsTrim code) = false ∧
          matchesFunctionStart (jsTrim code) = false ∧
          matchesParenFunction (jsTrim code) = false) ∨
         containsSub "document.".data (jsTrim code) = true ∨
         fetchScan none (jsTrim code) = true ∨
         awaitFetchScan none (jsTrim code) = true) :
    ∃ e, runScopeFunctionGate code = ScopeFnOutcome.rejected e := by
  rcases hvs : validateFunctionSyntax code with _ | e
  · exfalso
    unfold validateFunctionSyntax at hvs
    rcases h with ⟨h1, h2, h3⟩ | hd | hf | ha
    · rw [h1, h2, h3] at hvs; simp at hvs
    · rw [hd] at hvs
      split at hvs
      · exact Option.noConfusion hvs
      · simp at hvs
    · rw [hf] at hvs
      split at hvs
      · exact Option.noConfusion hvs
      · split at hvs
        · exact Option.noConfusion hvs
        · simp at hvs
    · rw [ha] at hvs
      split at hvs
      · exact Option.noConfusion hvs
      · split at hvs
        · exact Option.noConfusion hvs
        · split at hvs
          · exact Option.noConfusion hvs
          · simp at hvs
  · exact ⟨e, by unfold runScopeFunctionGate; rw [hvs]⟩

/-- Witness: the amended C8 theorem applied to the code `"hello"`, which
matches none of the three start patterns. -/
theorem c8_witness :
    ∃ e, runScopeFunctionGate "hello".data = ScopeFnOutcome.rejected e :=
  c8_reject "hello".data (Or.inl ⟨by decide, by decide, by decide⟩)

/-! The host DOM bridge (dom-bridge.ts `DOMBridge`).

The linkedom engine — parsing, selector matching, traversal and the
per-element serialization data — is the abstract interface `DomApi` over an
element type `E`; a query that throws on an invalid selector is an
`Except.error`. The bridge itself is the state machine the class implements:
`nodeMap` (association list, new ids are fresh so insertion is a cons) and
the `nextId` counter, threaded explicitly through every operation. -/

/-- The element data `serializeNode` computes (tag, block-aware text,
innerHTML, outerHTML, attributes, data- attributes, classes); its computation
reads only the element, so it is part of the abstract DOM interface. -/
structure ElemInfo where
  tag : Str
  text : Str
  html : Str
  outerHtml : Str
  attrs : List (Str × Str)
  dataAttrs : List (Str × Str)
  classes : List Str

/-- `SerializedNodeData` from dom-bridge.ts; `nid` is the `_id` field. -/
structure SerializedNodeData where
  nid : Nat
  tag : Str
  text : Str
  html : Str
  outerHtml : Str
  attrs : List (Str × Str)
  dataAttrs : List (Str × Str)
  classes : List Str

/-- The linkedom surface consumed by the bridge. A context of `none` means
the whole document. Selector-taking operations may throw. -/
structure DomApi (E : Type) where
  qs : Str → Option E → Except Str (Option E)
  qsa : Str → Option E → Except Str (List E)
  closestQ : E → Str → Except Str (Option E)
  matchesQ : E → Str → Except Str Bool
  parentElement : E → Option E
  childList : E → List E
  firstElementChild : E → Option E
  lastElementChild : E → Option E
  nextElementSibling : E → Option E
  previousElementSibling : E → Option E
  info : E → ElemInfo

/-- The persistent state of one `DOMBridge` instance. -/
structure BridgeState (E : Type) where
  nodeMap : List (Nat × E)
  nextId : Nat

/-- A freshly constructed bridge: empty map, counter at 1. -/
def BridgeState.init (E : Type) : BridgeState E := ⟨[], 1⟩

/-- `Map.get` on the node map. -/
def BridgeState.lookupNode {E : Type} (st : BridgeState E) (nodeId : Nat) : Option E :=
  List.lookup nodeId st.nodeMap

namespace DOMBridge

/-- `serializeNode`: `const id = this.nextId++; this.nodeMap.set(id, element);`
followed by building the record — an unconditionally fresh id on every call. -/
def serializeNode {E : Type} (api : DomApi E) (st : BridgeState E) (e : E) :
    SerializedNodeData × BridgeState E :=
  let id := st.nextId
  let i := api.info e
  (⟨id, i.tag, i.text, i.html, i.outerHtml, i.attrs, i.dataAttrs, i.classes⟩,
   ⟨(id, e) :: st.nodeMap, id + 1⟩)

/-- Serialization of a node list (`Array.from(elements).map(serializeNode)`),
threading the bridge state left to right. -/
def serializeAll {E : Type} (api : DomApi E) (st : BridgeState E) :
    List E → List SerializedNodeData × BridgeState E
  | [] => ([], st)
  | e :: rest =>
    let p := serializeNode api st e
    let q := serializeAll api p.2 rest
    (p.1 :: q.1, q.2)

/-- `querySelector`: catch an engine throw (invalid selector) and return
null; otherwise serialize the hit, if any. -/
def querySelector {E : Type} (api : DomApi E) (st : BridgeState E)
    (selector : Str) (ctx : Option E) :
    Option SerializedNodeData × BridgeState E :=
  match api.qs selector ctx with
  | .error _ => (none, st)
  | .ok none => (none, st)
  | .ok (some e) =>
    let p := serializeNode api st e
    (some p.1, p.2)

/-- `querySelectorAll`: invalid selector yields the empty list. -/
def querySelectorAll {E : Type} (api : DomApi E) (st : BridgeState E)
    (selector : Str) (ctx : Option E) :
    List SerializedNodeData × BridgeState E :=
  match api.qsa selector ctx with
  | .error _ => ([], st)
  | .ok es => serializeAll api st es

/-- `childQuery`: unknown id yields null, otherwise a scoped `querySelector`. -/
def childQuery {E : Type} (api : DomApi E) (st : BridgeState E)
    (nodeId : Nat) (selector : Str) :
    Option SerializedNodeData × BridgeState E :=
  match st.lookupNode nodeId with
  | none => (none, st)
  | some e => querySelector api st selector (some e)

/-- `childQueryAll`: unknown id yields the empty list. -/
def childQueryAll {E : Type} (api : DomApi E) (st : BridgeState E)
    (nodeId : Nat) (selector : Str) :
    List SerializedNodeData × BridgeState E :=
  match st.lookupNode nodeId with
  | none => ([], st)
  | some e => querySelectorAll api st selector (some e)

/-- `closest`: engine throw on a bad selector is absorbed to null. -/
def closest {E : Type} (api : DomApi E) (st : BridgeState E)
    (nodeId : Nat) (selector : Str) :
    Option SerializedNodeData × BridgeState E :=
  match st.lookupNode nodeId with
  | none => (none, st)
  | some e =>
    match api.closestQ e selector with
    | .error _ => (none, st)
    | .ok none => (none, st)
    | .ok (some r) =>
      let p := serializeNode api st r
      (some p.1, p.2)

/-- `parent`: optional selector filter via `matches`, whose throw is
absorbed to null. -/
def parent {E : Type} (api : DomApi E) (st : BridgeState E)
    (nodeId : Nat) (selector : Option Str) :
    Option SerializedNodeData × BridgeState E :=
  match st.lookupNode nodeId with
  | none => (none, st)
  | some e =>
    match api.parentElement e with
    | none => (none, st)
    | some pe =>
      match selector with
      | some sel =>
        match api.matchesQ pe sel with
        | .error _ => (none, st)
        | .ok true =>
          let p := serializeNode api st pe
          (some p.1, p.2)
        | .ok false => (none, st)
      | none =>
        let p := serializeNode api st pe
        (some p.1, p.2)

/-- `children`: serialize all direct element children. -/
def children {E : Type} (api : DomApi E) (st : BridgeState E) (nodeId : Nat) :
    List SerializedNodeData × BridgeState E :=
  match st.lookupNode nodeId with
  | none => ([], st)
  | some e => serializeAll api st (api.childList e)

/-- `firstChild` / `lastChild` / `nextSibling` / `prevSibling` share one
shape: resolve the id, follow one traversal link, serialize the target. -/
def traverse1 {E : Type} (api : DomApi E) (st : BridgeState E) (nodeId : Nat)
    (link : E → Option E) : Option SerializedNodeData × BridgeState E :=
  match st.lookupNode nodeId with
  | none => (none, st)
  | some e =>
    match link e with
    | none => (none, st)
    | some r =>
      let p := serializeNode api st r
      (some p.1, p.2)

/-- `firstChild`. -/
def firstChild {E : Type} (api : DomApi E) (st : BridgeState E) (nodeId : Nat) :
    Option SerializedNodeData × BridgeState E :=
  traverse1 api st nodeId api.firstElementChild

/-- `lastChild`. -/
def lastChild {E : Type} (api : DomApi E) (st : BridgeState E) (nodeId : Nat) :
    Option SerializedNodeData × BridgeState E :=
  traverse1 api st nodeId api.lastElementChild

/-- `nextSibling`. -/
def nextSibling {E : Type} (api : DomApi E) (st : BridgeState E) (nodeId : Nat) :
    Option SerializedNodeData × BridgeState E :=
  traverse1 api st nodeId api.nextElementSibling

/-- `prevSibling`. -/
def prevSibling {E : Type} (api : DomApi E) (st : BridgeState E) (nodeId : Nat) :
    Option SerializedNodeData × BridgeState E :=
  traverse1 api st nodeId api.previousElementSibling

end DOMBridge

/-- A document holding exactly one element, which every selector matches:
the behaviour of the linkedom engine for `DOMBridge("<p>x</p>")` under the
query `querySelector("p")`, which returns that same element each time. -/
def unitApi : DomApi Unit where
  qs := fun _ _ => .ok (some ())
  qsa := fun _ _ => .ok [()]
  closestQ := fun _ _ => .ok (some ())
  matchesQ := fun _ _ => .ok true
  parentElement := fun _ => none
  childList := fun _ => []
  firstElementChild := fun _ => none
  lastElementChild := fun _ => none
  nextElementSibling := fun _ => none
  previousElementSibling := fun _ => none
  info := fun _ => ⟨"p".data, "x".data, "x".data, "<p>x</p>".data, [], [], []⟩

/-- C1, counterexample: on one bridge, two queries that return the same
element issue two different ids (1, then 2): `serializeNode` increments
`nextId` on every call and never re-uses an id already issued for the
element, so `NodeSnapshot`s for one element do not carry one stable id. -/
theorem c1_counterexample :
    ((DOMBridge.querySelector unitApi (BridgeState.init Unit) "p".data none).1.map
        (fun d => d.nid)) = some 1 ∧
    ((DOMBridge.querySelector unitApi
        (DOMBridge.querySelector unitApi (BridgeState.init Unit) "p".data none).2
        "p".data none).1.map (fun d => d.nid)) = some 2 :=
  ⟨rfl, rfl⟩

/-- C1 (amended): every snapshot-returning operation assigns an
unconditionally fresh id: the snapshot's id is the current `nextId`, the
counter is incremented, and the (id, element) pair is prepended to the node
map — so re-serializing an element yields a new, strictly larger id rather
than the one issued before. Stated for the core `serializeNode` (through
which every operation issues snapshots) and for `querySelector`. -/
theorem c1_fresh_id {E : Type} (api : DomApi E) :
    (∀ (st : BridgeState E) (e : E),
      (DOMBridge.serializeNode api st e).1.nid = st.nextId ∧
      (DOMBridge.serializeNode api st e).2.nextId = st.nextId + 1 ∧
      (DOMBridge.serializeNode api st e).2.nodeMap = (st.nextId, e) :: st.nodeMap) ∧
    (∀ (st : BridgeState E) (sel : Str) (ctx : Option E)
        (d : SerializedNodeData) (st' : BridgeState E),
      DOMBridge.querySelector api st sel ctx = (some d, st') →
      d.nid = st.nextId ∧ st'.nextId = st.nextId + 1 ∧
      ∃ e, api.qs sel ctx = Except.ok (some e) ∧
        st'.nodeMap = (st.nextId, e) :: st.nodeMap) := by
  refine ⟨fun st e => ⟨rfl, rfl, rfl⟩, ?_⟩
  intro st sel ctx d st' h
  unfold DOMBridge.querySelector at h
  cases hqs : api.qs sel ctx with
  | error err =>
    rw [hqs] at h
    exact absurd (congrArg Prod.fst h) (by simp)
  | ok o =>
    cases o with
    | none =>
      rw [hqs] at h
      exact absurd (congrArg Prod.fst h) (by simp)
    | some e =>
      rw [hqs] at h
      have h1 := congrArg Prod.fst h
      have h2 := congrArg Prod.snd h
      simp only at h1 h2
      have hd : (DOMBridge.serializeNode api st e).1 = d := by
        injection h1
      refine ⟨?_, ?_, e, rfl, ?_⟩
      · rw [← hd]; rfl
      · rw [← h2]; rfl
      · rw [← h2]; rfl

/-- The snapshot the first query on `unitApi` returns. -/
def unitSnap : SerializedNodeData :=
  ⟨1, "p".data, "x".data, "x".data, "<p>x</p>".data, [], [], []⟩

/-- The bridge state after the first query on `unitApi`. -/
def unitStAfter : BridgeState Unit := ⟨[(1, ())], 2⟩

/-- Witness: the amended C1 theorem applied to the concrete one-element
bridge, discharging the query hypothesis by computation. -/
theorem c1_witness :
    unitSnap.nid = (BridgeState.init Unit).nextId ∧
    unitStAfter.nextId = (BridgeState.init Unit).nextId + 1 ∧
    ∃ e, unitApi.qs "p".data none = Except.ok (some e) ∧
      unitStAfter.nodeMap = ((BridgeState.init Unit).nextId, e)
        :: (BridgeState.init Unit).nodeMap :=
  (c1_fresh_id unitApi).2 (BridgeState.init Unit) "p".data none unitSnap unitStAfter rfl

/-- C5: when the selector engine throws on a selector (an invalid CSS
selector), every bridge query absorbs the failure silently: `querySelector`
returns null and `querySelectorAll` the empty list (likewise the scoped and
traversal variants that take a selector), the bridge state is untouched, and
nothing propagates to the caller. -/
theorem c5_invalid_selector_absorbed {E : Type} (api : DomApi E)
    (st : BridgeState E) (sel : Str) (err : Str)
    (h1 : ∀ ctx, api.qs sel ctx = Except.error err)
    (h2 : ∀ ctx, api.qsa sel ctx = Except.error err)
    (h3 : ∀ e, api.closestQ e sel = Except.error err)
    (h4 : ∀ e, api.matchesQ e sel = Except.error err) :
    (∀ ctx, DOMBridge.querySelector api st sel ctx = (none, st)) ∧
    (∀ ctx, DOMBridge.querySelectorAll api st sel ctx = ([], st)) ∧
    (∀ nodeId, DOMBridge.childQuery api st nodeId sel = (none, st)) ∧
    (∀ nodeId, DOMBridge.childQueryAll api st nodeId sel = ([], st)) ∧
    (∀ nodeId, DOMBridge.closest api st nodeId sel = (none, st)) ∧
    (∀ nodeId, DOMBridge.parent api st nodeId (some sel) = (none, st)) := by
  have hq : ∀ ctx, DOMBridge.querySelector api st sel ctx = (none, st) := by
    intro ctx
    unfold DOMBridge.querySelector
    rw [h1]
  have hqa : ∀ ctx, DOMBridge.querySelectorAll api st sel ctx = ([], st) := by
    intro ctx
    unfold DOMBridge.querySelectorAll
    rw [h2]
  refine ⟨hq, hqa, ?_, ?_, ?_, ?_⟩
  · intro nodeId
    unfold DOMBridge.childQuery
    cases st.lookupNode nodeId with
    | none => rfl
    | some e => exact hq (some e)
  · intro nodeId
    unfold DOMBridge.childQueryAll
    cases st.lookupNode nodeId with
    | none => rfl
    | some e => exact hqa (some e)
  · intro nodeId
    unfold DOMBridge.closest
    cases st.lookupNode nodeId with
    | none => rfl
    | some e => simp [h3]
  · intro nodeId
    unfold DOMBridge.parent
    cases st.lookupNode nodeId with
    | none => rfl
    | some e =>
      cases hp : api.parentElement e with
      | none => simp [hp]
      | some pe => simp [hp, h4]

/-- An engine that throws `SyntaxError` on every selector query: the
behaviour of linkedom on an invalid selector such as `"p::foo("`. -/
def throwingApi : DomApi Unit where
  qs := fun _ _ => .error "SyntaxError".data
  qsa := fun _ _ => .error "SyntaxError".data
  closestQ := fun _ _ => .error "SyntaxError".data
  matchesQ := fun _ _ => .error "SyntaxError".data
  parentElement := fun _ => some ()
  childList := fun _ => []
  firstElementChild := fun _ => none
  lastElementChild := fun _ => none
  nextElementSibling := fun _ => none
  previousElementSibling := fun _ => none
  info := fun _ => ⟨"p".data, [], [], [], [], [], []⟩

/-- Witness: the C5 theorem applied to the always-throwing engine at a
concrete state. -/
theorem c5_witness :
    DOMBridge.querySelector throwingApi (BridgeState.init Unit) "p::foo(".data none
      = (none, BridgeState.init Unit) ∧
    DOMBridge.querySelectorAll throwingApi (BridgeState.init Unit) "p::foo(".data none
      = ([], BridgeState.init Unit) :=
  ⟨(c5_invalid_selector_absorbed throwingApi (BridgeState.init Unit) "p::foo(".data
      "SyntaxError".data (fun _ => rfl) (fun _ => rfl) (fun _ => rfl) (fun _ => rfl)).1 none,
   (c5_invalid_selector_absorbed throwingApi (BridgeState.init Unit) "p::foo(".data
      "SyntaxError".data (fun _ => rfl) (fun _ => rfl) (fun _ => rfl) (fun _ => rfl)).2.1 none⟩

/-! The HTML side (html-parser.ts): `parse` of node-html-parser is modelled
by a lenient tag-soup tokenizer and stack builder (no implied tags, void
elements self-close, stray close tags pop to the matching open tag or are
dropped), which agrees with the library on the well-formed inputs evaluated
in the theorems below. Selectors are the simple compound selectors the
source actually passes (`tag`, `#id`, `.class`, `[attr]`, `[attr="value"]`,
and conjunctions of these). -/

/-- A parsed HTML node: text, or an element with attributes and children. -/
inductive HNode where
  | text (s : Str) : HNode
  | elem (tag : Str) (attrs : List (Str × Str)) (children : List HNode) : HNode

/-- Tokens of the tag-soup tokenizer. -/
inductive HTok where
  | tOpen (tag : Str) (attrs : List (Str × Str)) (selfClose : Bool) : HTok
  | tClose (tag : Str) : HTok
  | tText (s : Str) : HTok

/-- ASCII letter. -/
def isAlpha (c : Char) : Bool := ('a' ≤ c && c ≤ 'z') || ('A' ≤ c && c ≤ 'Z')

/-- Characters allowed in tag and attribute names. -/
def isNameChar (c : Char) : Bool := isWordChar c || c = '-' || c = ':'

/-- ASCII lowercasing of one character. -/
def lowerChar (c : Char) : Char :=
  if 'A' ≤ c && c ≤ 'Z' then Char.ofNat (c.toNat + 32) else c

/-- ASCII lowercasing of a string. -/
def toLowerStr (l : Str) : Str := l.map lowerChar

/-- Attribute scanner: everything between a tag name and the closing `>`
(or self-closing `/>`), as `name`, `name=bare`, `name="quoted"` or
`name='quoted'` pairs. Fueled so the definition stays structural; one unit
of fuel per consumed character suffices. -/
def readAttrs : Nat → Str → List (Str × Str) × Bool × Str
  | 0, l => ([], false, l)
  | _ + 1, [] => ([], false, [])
  | _ + 1, '>' :: rest => ([], false, rest)
  | _ + 1, '/' :: '>' :: rest => ([], true, rest)
  | f + 1, c :: rest =>
    if isJsWs c || c = '/' then readAttrs f rest
    else
      let name := (c :: rest).takeWhile
        (fun d => !isJsWs d && d ≠ '=' && d ≠ '>' && d ≠ '/')
      let r1 := (c :: rest).dropWhile
        (fun d => !isJsWs d && d ≠ '=' && d ≠ '>' && d ≠ '/')
      match r1 with
      | '=' :: '"' :: r3 =>
        let v := r3.takeWhile (· ≠ '"')
        let r4 := (r3.dropWhile (· ≠ '"')).drop 1
        let q := readAttrs f r4
        ((name, v) :: q.1, q.2)
      | '=' :: '\'' :: r3 =>
        let v := r3.takeWhile (· ≠ '\'')
        let r4 := (r3.dropWhile (· ≠ '\'')).drop 1
        let q := readAttrs f r4
        ((name, v) :: q.1, q.2)
      | '=' :: r2 =>
        let v := r2.takeWhile (fun d => !isJsWs d && d ≠ '>')
        let r4 := r2.dropWhile (fun d => !isJsWs d && d ≠ '>')
        let q := readAttrs f r4
        ((name, v) :: q.1, q.2)
      | _ =>
        let q := readAttrs f r1
        ((name, []) :: q.1, q.2)

/-- The tokenizer: text runs, `</...>` close tags, `<!...>` skipped,
`<name ...>` open tags; a `<` that does not begin a tag is text. Fueled
(one unit per token suffices; the fuel `length + 1` is always enough). -/
def tokenize : Nat → Str → List HTok
  | 0, _ => []
  | _ + 1, [] => []
  | f + 1, '<' :: '/' :: rest =>
    let name := rest.takeWhile isNameChar
    let r1 := rest.dropWhile isNameChar
    let r2 : Str := match r1.dropWhile (· ≠ '>') with
      | '>' :: r => r
      | _ => []
    .tClose (toLowerStr name) :: tokenize f r2
  | f + 1, '<' :: '!' :: rest =>
    let r2 : Str := match rest.dropWhile (· ≠ '>') with
      | '>' :: r => r
      | _ => []
    tokenize f r2
  | f + 1, '<' :: c :: rest =>
    if isAlpha c then
      let name := (c :: rest).takeWhile isNameChar
      let r1 := (c :: rest).dropWhile isNameChar
      let q := readAttrs (r1.length + 1) r1
      .tOpen (toLowerStr name) q.1 q.2.1 :: tokenize f q.2.2
    else
      .tText ['<'] :: tokenize f (c :: rest)
  | f + 1, l =>
    .tText (l.takeWhile (· ≠ '<')) :: tokenize f (l.dropWhile (· ≠ '<'))

/-- The void elements of node-html-parser (`kSelfClosingElements`). -/
def isVoidTag (t : Str) : Bool :=
  (["area", "base", "br", "col", "hr", "img", "input", "link", "meta",
    "source", "embed", "param", "track", "wbr"].map String.data).contains t

/-- A builder stack frame: open tag, its attributes, its children so far in
reverse order. -/
abbrev Frame := Str × List (Str × Str) × List HNode

/-- Attach a finished node to the innermost open frame, or to the top-level
accumulator when no frame is open. -/
def addNode (n : HNode) : List Frame → List HNode → List Frame × List HNode
  | [], acc => ([], n :: acc)
  | (t, a, cs) :: rest, acc => ((t, a, n :: cs) :: rest, acc)

/-- Does the stack hold an open element with this tag? -/
def stackHas (t : Str) : List Frame → Bool
  | [] => false
  | (tag, _, _) :: rest => tag = t || stackHas t rest

/-- Close frames until (and including) the one with tag `t`, closing the
unclosed inner elements into their parents on the way; fueled by the stack
depth. -/
def popUntilF (t : Str) : Nat → List Frame → List HNode → List Frame × List HNode
  | 0, st, acc => (st, acc)
  | _ + 1, [], acc => ([], acc)
  | f + 1, (tag, a, cs) :: rest, acc =>
    if tag = t then addNode (.elem tag a cs.reverse) rest acc
    else
      match rest with
      | [] => ([], .elem tag a cs.reverse :: acc)
      | (t2, a2, cs2) :: rest2 =>
        popUntilF t f ((t2, a2, (HNode.elem tag a cs.reverse) :: cs2) :: rest2) acc

/-- Close all remaining frames at end of input; fueled by the stack depth. -/
def finalizeF : Nat → List Frame → List HNode → List HNode
  | 0, _, acc => acc.reverse
  | _ + 1, [], acc => acc.reverse
  | f + 1, (tag, a, cs) :: rest, acc =>
    match rest with
    | [] => (HNode.elem tag a cs.reverse :: acc).reverse
    | (t2, a2, cs2) :: rest2 =>
      finalizeF f ((t2, a2, (HNode.elem tag a cs.reverse) :: cs2) :: rest2) acc

/-- The stack builder: push open tags, attach void/self-closing elements and
text directly, pop on matching close tags, ignore unmatched close tags. -/
def buildWith : List HTok → List Frame → List HNode → List HNode
  | [], st, acc => finalizeF (st.length + 1) st acc
  | .tText s :: toks, st, acc =>
    let q := addNode (.text s) st acc
    buildWith toks q.1 q.2
  | .tOpen tag attrs sc :: toks, st, acc =>
    if sc || isVoidTag tag then
      let q := addNode (.elem tag attrs []) st acc
      buildWith toks q.1 q.2
    else buildWith toks ((tag, attrs, []) :: st) acc
  | .tClose t :: toks, st, acc =>
    if stackHas t st then
      let q := popUntilF t (st.length + 1) st acc
      buildWith toks q.1 q.2
    else buildWith toks st acc

/-- `parse(html)` of node-html-parser: the root element (empty tag) holding
the parsed top-level nodes. -/
def parseHtml (html : Str) : HNode :=
  .elem [] [] (buildWith (tokenize (html.length + 1) html) [] [])

/-- A simple compound selector: optional tag, optional id, class tokens,
attribute constraints (present, or equal to a value). -/
structure SimpleSel where
  tag : Option Str
  sid : Option Str
  classes : List Str
  attrs : List (Str × Option Str)

/-- Characters allowed in selector names. -/
def isSelNameChar (c : Char) : Bool := isWordChar c || c = '-'

/-- Parse the `#id`/`.class`/`[attr]`/`[attr="v"]` parts of a selector;
fueled by the remaining length. -/
def parseSelParts : Nat → Str → SimpleSel → Option SimpleSel
  | 0, _, _ => none
  | _ + 1, [], acc => some acc
  | f + 1, '#' :: rest, acc =>
    let name := rest.takeWhile isSelNameChar
    if name.isEmpty then none
    else parseSelParts f (rest.dropWhile isSelNameChar) { acc with sid := some name }
  | f + 1, '.' :: rest, acc =>
    let name := rest.takeWhile isSelNameChar
    if name.isEmpty then none
    else parseSelParts f (rest.dropWhile isSelNameChar)
      { acc with classes := acc.classes ++ [name] }
  | f + 1, '[' :: rest, acc =>
    let name := rest.takeWhile isSelNameChar
    let r1 := rest.dropWhile isSelNameChar
    if name.isEmpty then none
    else
      match r1 with
      | ']' :: r2 => parseSelParts f r2 { acc with attrs := acc.attrs ++ [(name, none)] }
      | '=' :: '"' :: r2 =>
        let v := r2.takeWhile (· ≠ '"')
        (match r2.dropWhile (· ≠ '"') with
         | '"' :: ']' :: r3 =>
           parseSelParts f r3 { acc with attrs := acc.attrs ++ [(name, some v)] }
         | _ => none)
      | '=' :: '\'' :: r2 =>
        let v := r2.takeWhile (· ≠ '\'')
        (match r2.dropWhile (· ≠ '\'') with
         | '\'' :: ']' :: r3 =>
           parseSelParts f r3 { acc with attrs := acc.attrs ++ [(name, some v)] }
         | _ => none)
      | '=' :: r2 =>
        let v := r2.takeWhile (· ≠ ']')
        (match r2.dropWhile (· ≠ ']') with
         | ']' :: r3 =>
           parseSelParts f r3 { acc with attrs := acc.attrs ++ [(name, some v)] }
         | _ => none)
      | _ => none
  | _ + 1, _, _ => none

/-- Parse a simple compound selector (an optional leading tag name followed
by id/class/attribute parts). Combinators are not modelled: the embedded
callers only pass simple selectors. -/
def parseSel (s : Str) : Option SimpleSel :=
  let tname := s.takeWhile isSelNameChar
  let rest := s.dropWhile isSelNameChar
  parseSelParts (rest.length + 1) rest
    ⟨if tname.isEmpty then none else some (toLowerStr tname), none, [], []⟩

/-- Attribute lookup on an element's attribute list. -/
def getAttr (attrs : List (Str × Str)) (name : Str) : Option Str :=
  List.lookup name attrs

/-- Split a class attribute value on whitespace into tokens. -/
def splitWsAux (cur : Str) : Str → List Str
  | [] => if cur.isEmpty then [] else [cur.reverse]
  | c :: rest =>
    if isJsWs c then
      if cur.isEmpty then splitWsAux [] rest
      else cur.reverse :: splitWsAux [] rest
    else splitWsAux (c :: cur) rest

/-- Split on whitespace runs, dropping empty tokens. -/
def splitWs (l : Str) : List Str := splitWsAux [] l

/-- Does an element with this tag and attribute list match the selector? -/
def elemMatches (sel : SimpleSel) (tag : Str) (attrs : List (Str × Str)) : Bool :=
  (match sel.tag with
   | none => true
   | some t => toLowerStr tag = t) &&
  (match sel.sid with
   | none => true
   | some i => getAttr attrs "id".data = some i) &&
  sel.classes.all (fun c =>
    match getAttr attrs "class".data with
    | some cls => (splitWs cls).contains c
    | none => false) &&
  sel.attrs.all (fun pr =>
    match pr.2 with
    | none => (getAttr attrs pr.1).isSome
    | some v => getAttr attrs pr.1 = some v)

mutual

/-- All element descendants (the node itself included when it matches) that
satisfy the predicate, in document (pre-)order. -/
def qsaN (p : Str → List (Str × Str) → Bool) : HNode → List HNode
  | .text _ => []
  | .elem tag attrs cs =>
    (if p tag attrs then [HNode.elem tag attrs cs] else []) ++ qsaL p cs

/-- `qsaN` over a node list. -/
def qsaL (p : Str → List (Str × Str) → Bool) : List HNode → List HNode
  | [] => []
  | n :: rest => qsaN p n ++ qsaL p rest

end

/-- `root.querySelectorAll(sel)`: matching descendants of the root, in
document order (an unparseable selector matches nothing). -/
def qsaFrom (root : HNode) (sel : Str) : List HNode :=
  match parseSel sel with
  | none => []
  | some s =>
    match root with
    | .text _ => []
    | .elem _ _ cs => qsaL (elemMatches s) cs

/-- `root.querySelector(sel)`: the first match in document order. -/
def qsFirst (root : HNode) (sel : Str) : Option HNode := (qsaFrom root sel).head?

mutual

/-- Remove every matching element (with its whole subtree) strictly below
this node. -/
def removeN (p : Str → List (Str × Str) → Bool) : HNode → HNode
  | .text s => .text s
  | .elem tag attrs cs => .elem tag attrs (removeL p cs)

/-- `removeN` over a node list, dropping matching elements at this level. -/
def removeL (p : Str → List (Str × Str) → Bool) : List HNode → List HNode
  | [] => []
  | n :: rest =>
    match n with
    | .text s => .text s :: removeL p rest
    | .elem tag attrs _ =>
      if p tag attrs then removeL p rest
      else removeN p n :: removeL p rest

end

/-- `root.querySelectorAll(sel).forEach(el => el.remove())`: removal of all
matching descendants (nested matches disappear with their ancestors; their
own removal from the detached subtree is unobservable in the tree). -/
def removeBySelector (sel : Str) (root : HNode) : HNode :=
  match parseSel sel with
  | none => root
  | some s => removeN (elemMatches s) root

mutual

/-- `textContent`: the concatenated text nodes of the subtree. -/
def textN : HNode → Str
  | .text s => s
  | .elem _ _ cs => textL cs

/-- `textN` over a node list. -/
def textL : List HNode → Str
  | [] => []
  | n :: rest => textN n ++ textL rest

end

/-- Serialize an attribute list back to HTML source form. -/
def serializeAttrs (attrs : List (Str × Str)) : Str :=
  attrs.foldr (fun pr acc => ' ' :: (pr.1 ++ '=' :: '"' :: pr.2 ++ '"' :: acc)) []

mutual

/-- `outerHTML` of a node (the root pseudo-element serializes as its
children). -/
def serializeN : HNode → Str
  | .text s => s
  | .elem tag attrs cs =>
    if tag.isEmpty then serializeL cs
    else if isVoidTag tag then
      '<' :: (tag ++ serializeAttrs attrs ++ ['>'])
    else
      '<' :: (tag ++ serializeAttrs attrs ++ ['>']) ++
        serializeL cs ++ '<' :: '/' :: (tag ++ ['>'])

/-- `serializeN` over a node list. -/
def serializeL : List HNode → Str
  | [] => []
  | n :: rest => serializeN n ++ serializeL rest

end

/-- `innerHTML`: the serialization of the children. -/
def innerHTML : HNode → Str
  | .text s => s
  | .elem _ _ cs => serializeL cs

/-- The output formats (`ContentFormat` in html-parser.ts). -/
inductive ContentFormat where
  | html
  | markdown
  | text

/-- The unconditional removals of `extractContent`. -/
def alwaysRemoveTags : List Str :=
  ["script", "style", "noscript", "iframe", "svg"].map String.data

/-- The `mainOnly` removal selectors of `extractContent`, in source order:
five tags, four role attributes, nine class names — and only five id names
(`#navbar`, `#advertisement`, `#ads`, `#ad` are absent). -/
def mainOnlyRemoveSelectors : List Str :=
  ["nav", "header", "footer", "aside", "form",
   "[role=\"navigation\"]", "[role=\"banner\"]", "[role=\"contentinfo\"]",
   "[role=\"complementary\"]",
   ".nav", ".navbar", ".header", ".footer", ".sidebar", ".menu",
   ".advertisement", ".ads", ".ad",
   "#nav", "#header", "#footer", "#sidebar", "#menu"].map String.data

/-- The container preference list of `extractContent`. -/
def mainSelectors : List Str :=
  ["main", "[role=\"main\"]", "article", ".content", ".post", ".article",
   ".entry", "#content", "#main", ".main"].map String.data

/-- Sequential `querySelectorAll(sel).forEach(remove)` over a selector list. -/
def applyRemovals (sels : List Str) (root : HNode) : HNode :=
  sels.foldl (fun r s => removeBySelector s r) root

/-- Removal of `<img>` elements whose `src` starts with `data:`. -/
def removeImgData (root : HNode) : HNode :=
  removeN
    (fun tag attrs =>
      toLowerStr tag = "img".data &&
        (match getAttr attrs "src".data with
         | some v => "data:".data.isPrefixOf v
         | none => false))
    root

/-- The whole-document cleanup `extractContent` performs before container
selection when `mainOnly` is set: the unconditional tag removals, the
`data:` image removal, then the `mainOnly` selector removals. -/
def mainCleanup (root : HNode) : HNode :=
  applyRemovals mainOnlyRemoveSelectors (removeImgData (applyRemovals alwaysRemoveTags root))

/-- The container search: the first preference selector whose first match
has at least 100 characters of trimmed text. -/
def findContainer : List Str → HNode → Option HNode
  | [], _ => none
  | sel :: rest, root =>
    match qsFirst root sel with
    | some el =>
      if 100 ≤ (jsTrim (textN el)).length then some el
      else findContainer rest root
    | none => findContainer rest root

/-- `extractContent(html, mainOnly, format)` from html-parser.ts. The
Turndown conversion is an external library and enters as the `turndown`
parameter (the source wraps it with `.trim()`); the claims below only
exercise the `text` format, which never calls it. -/
def extractContent (turndown : Str → Str) (html : Str) (mainOnly : Bool)
    (format : ContentFormat) : Str :=
  let root := parseHtml html
  let root2 := removeImgData (applyRemovals alwaysRemoveTags root)
  let root3 := if mainOnly then applyRemovals mainOnlyRemoveSelectors root2 else root2
  let contentO : Option HNode :=
    if mainOnly then findContainer mainSelectors root3 else none
  let content : HNode :=
    match contentO with
    | some el => el
    | none =>
      match qsFirst root3 "body".data with
      | some b => b
      | none => root3
  match format with
  | .html => innerHTML content
  | .markdown => jsTrim (turndown (innerHTML content))
  | .text => cleanText (textN content)

/-- `expr || null` on a string that may be absent: empty becomes null. -/
def jsOrNull (s : Option Str) : Option Str :=
  match s with
  | some v => if v.isEmpty then none else some v
  | none => none

/-- Attribute list of a node (empty for text nodes). -/
def attrsOf : HNode → List (Str × Str)
  | .text _ => []
  | .elem _ a _ => a

/-- The selector `meta[name="<name>"]`. -/
def metaNameSel (name : Str) : Str :=
  "meta[name=\"".data ++ name ++ "\"]".data

/-- The selector `meta[property="<prop>"]`. -/
def metaPropSel (prop : Str) : Str :=
  "meta[property=\"".data ++ prop ++ "\"]".data

/-- `getTitle`: first `<title>`, trimmed text, empty → null. -/
def getTitle (root : HNode) : Option Str :=
  jsOrNull ((qsFirst root "title".data).map (fun el => jsTrim (textN el)))

/-- `getMetaContent`: `content` attribute of the first matching meta, with
missing or empty values mapped to null. -/
def getMetaContent (root : HNode) (name : Str) : Option Str :=
  jsOrNull ((qsFirst root (metaNameSel name)).bind
    (fun el => getAttr (attrsOf el) "content".data))

/-- `getOgContent`. -/
def getOgContent (root : HNode) (prop : Str) : Option Str :=
  jsOrNull ((qsFirst root (metaPropSel prop)).bind
    (fun el => getAttr (attrsOf el) "content".data))

/-- `getCanonical`. -/
def getCanonical (root : HNode) : Option Str :=
  jsOrNull ((qsFirst root "link[rel=\"canonical\"]".data).bind
    (fun el => getAttr (attrsOf el) "href".data))

/-- `getFirstHeading`: first `<h1>`, trimmed text, empty → null. -/
def getFirstHeading (root : HNode) : Option Str :=
  jsOrNull ((qsFirst root "h1".data).map (fun el => jsTrim (textN el)))

/-- One hreflang alternate. -/
structure HreflangLink where
  lang : Str
  url : Str

/-- `getHreflang`: alternates with both a non-empty `hreflang` and a
non-empty `href` (JS truthiness drops empty attribute values). -/
def getHreflang (root : HNode) : List HreflangLink :=
  (qsaFrom root "link[rel=\"alternate\"][hreflang]".data).filterMap
    (fun el =>
      match getAttr (attrsOf el) "hreflang".data, getAttr (attrsOf el) "href".data with
      | some lg, some u => if lg.isEmpty || u.isEmpty then none else some ⟨lg, u⟩
      | _, _ => none)

/-- The Open Graph record. -/
structure OpenGraph where
  title : Option Str
  description : Option Str
  image : Option Str
  url : Option Str
  ogType : Option Str
  siteName : Option Str

/-- The `PageMeta` record of html-parser.ts. -/
structure PageMeta where
  title : Option Str
  description : Option Str
  keywords : Option Str
  canonical : Option Str
  robots : Option Str
  index : Bool
  heading : Option Str
  hreflang : List HreflangLink
  opengraph : OpenGraph

/-- `parseHtmlMeta` on an already parsed document. -/
def pageMetaOfRoot (root : HNode) : PageMeta :=
  let robots := getMetaContent root "robots".data
  { title := getTitle root
    description := getMetaContent root "description".data
    keywords := getMetaContent root "keywords".data
    canonical := getCanonical root
    robots := robots
    index :=
      match robots with
      | none => true
      | some r => !containsSub "noindex".data (toLowerStr r)
    heading := getFirstHeading root
    hreflang := getHreflang root
    opengraph :=
      { title := getOgContent root "og:title".data
        description := getOgContent root "og:description".data
        image := getOgContent root "og:image".data
        url := getOgContent root "og:url".data
        ogType := getOgContent root "og:type".data
        siteName := getOgContent root "og:site_name".data } }

/-- `parseHtmlMeta` from html-parser.ts. -/
def parseHtmlMeta (html : Str) : PageMeta := pageMetaOfRoot (parseHtml html)

/-! Unfolding equations for the mutual tree functions (all definitional). -/

/-- Children of a node. -/
def childrenOf : HNode → List HNode
  | .text _ => []
  | .elem _ _ cs => cs

theorem removeN_elem (p : Str → List (Str × Str) → Bool) (tag : Str)
    (attrs : List (Str × Str)) (cs : List HNode) :
    removeN p (.elem tag attrs cs) = .elem tag attrs (removeL p cs) := rfl

theorem removeL_cons_text (p : Str → List (Str × Str) → Bool) (s : Str)
    (rest : List HNode) :
    removeL p (.text s :: rest) = .text s :: removeL p rest := rfl

theorem removeL_cons_elem (p : Str → List (Str × Str) → Bool) (tag : Str)
    (attrs : List (Str × Str)) (cs : List HNode) (rest : List HNode) :
    removeL p (.elem tag attrs cs :: rest) =
      if p tag attrs then removeL p rest
      else .elem tag attrs (removeL p cs) :: removeL p rest := rfl

theorem qsaN_text (p : Str → List (Str × Str) → Bool) (s : Str) :
    qsaN p (.text s) = [] := rfl

theorem qsaN_elem (p : Str → List (Str × Str) → Bool) (tag : Str)
    (attrs : List (Str × Str)) (cs : List HNode) :
    qsaN p (.elem tag attrs cs) =
      (if p tag attrs then [HNode.elem tag attrs cs] else []) ++ qsaL p cs := rfl

theorem qsaL_cons (p : Str → List (Str × Str) → Bool) (n : HNode)
    (rest : List HNode) :
    qsaL p (n :: rest) = qsaN p n ++ qsaL p rest := by
  cases n <;> rfl

/-- Removal with a predicate leaves no element matching that predicate. -/
theorem qsaL_removeL_self (p : Str → List (Str × Str) → Bool) (l : List HNode) :
    qsaL p (removeL p l) = [] := by
  refine removeL.induct p
    (fun n => qsaL p (removeL p (childrenOf n)) = [])
    (fun l => qsaL p (removeL p l) = []) ?_ ?_ ?_ ?_ ?_ ?_ l
  · intro s; rfl
  · intro tag attrs cs h; simpa [childrenOf] using h
  · rfl
  · intro rest s ih
    simp [removeL_cons_text, qsaL_cons, qsaN_text, ih]
  · intro rest tag attrs cs hp ih
    simp [removeL_cons_elem, hp, ih]
  · intro rest tag attrs cs hp ih1 ih2
    simp only [childrenOf] at ih1
    simp [removeL_cons_elem, hp, qsaL_cons, qsaN_elem, ih1, ih2]

/-- Removal (with any predicate) cannot create a match of another predicate:
emptiness of the match set is preserved. -/
theorem qsaL_removeL_other (p q : Str → List (Str × Str) → Bool)
    (l : List HNode) (h : qsaL p l = []) : qsaL p (removeL q l) = [] := by
  refine removeL.induct q
    (fun n => qsaL p (childrenOf n) = [] → qsaL p (removeL q (childrenOf n)) = [])
    (fun l => qsaL p l = [] → qsaL p (removeL q l) = []) ?_ ?_ ?_ ?_ ?_ ?_ l h
  · intro s _; rfl
  · intro tag attrs cs ih; simpa [childrenOf] using ih
  · intro _; rfl
  · intro rest s ih h4
    simp only [qsaL_cons, qsaN_text, List.nil_append] at h4
    simp [removeL_cons_text, qsaL_cons, qsaN_text, ih h4]
  · intro rest tag attrs cs hq ih h5
    simp only [qsaL_cons, List.append_eq_nil] at h5
    simp [removeL_cons_elem, hq, ih h5.2]
  · intro rest tag attrs cs hq ih1 ih2 h6
    simp only [qsaL_cons, qsaN_elem, List.append_eq_nil] at h6
    obtain ⟨⟨hif, hcs⟩, hrest⟩ := h6
    have hp' : p tag attrs = false := by
      cases hpv : p tag attrs with
      | false => rfl
      | true => rw [hpv] at hif; simp at hif
    simp only [childrenOf] at ih1
    simp [removeL_cons_elem, hq, qsaL_cons, qsaN_elem, hp', ih1 hcs, ih2 hrest]

/-- `removeBySelector` leaves no match of its own selector. -/
theorem qsaFrom_removeBySelector_self (sel : Str) (root : HNode) :
    qsaFrom (removeBySelector sel root) sel = [] := by
  unfold removeBySelector qsaFrom
  cases hp : parseSel sel with
  | none => simp
  | some s =>
    cases root with
    | text t => simp [removeN]
    | elem tag attrs cs => simp [removeN_elem, qsaL_removeL_self]

/-- `removeN` (any predicate) preserves emptiness of a selector's match set. -/
theorem qsaFrom_removeN (q : Str → List (Str × Str) → Bool) (sel : Str)
    (root : HNode) (h : qsaFrom root sel = []) :
    qsaFrom (removeN q root) sel = [] := by
  unfold qsaFrom at h ⊢
  cases hp : parseSel sel with
  | none => simp
  | some s =>
    rw [hp] at h
    cases root with
    | text t => simp [removeN]
    | elem tag attrs cs => simpa [removeN_elem] using qsaL_removeL_other _ q cs h

/-- `removeBySelector` (any selector) preserves emptiness of a selector's
match set. -/
theorem qsaFrom_removeBySelector_other (sel sel2 : Str) (root : HNode)
    (h : qsaFrom root sel = []) :
    qsaFrom (removeBySelector sel2 root) sel = [] := by
  unfold removeBySelector
  cases parseSel sel2 with
  | none => exact h
  | some q => exact qsaFrom_removeN _ sel root h

/-- `applyRemovals` preserves emptiness of a selector's match set. -/
theorem qsaFrom_applyRemovals_pres (L : List Str) (root : HNode) (sel : Str)
    (h : qsaFrom root sel = []) :
    qsaFrom (applyRemovals L root) sel = [] := by
  induction L generalizing root with
  | nil => exact h
  | cons a L ih =>
    unfold applyRemovals at ih ⊢
    rw [List.foldl_cons]
    exact ih _ (qsaFrom_removeBySelector_other sel a root h)

/-- After `applyRemovals L`, no selector of `L` has any match left. -/
theorem qsaFrom_applyRemovals_mem (L : List Str) (root : HNode) (sel : Str)
    (h : sel ∈ L) :
    qsaFrom (applyRemovals L root) sel = [] := by
  induction L generalizing root with
  | nil => cases h
  | cons a L ih =>
    unfold applyRemovals at ih ⊢
    rw [List.foldl_cons]
    rcases List.mem_cons.1 h with rfl | hmem
    · exact qsaFrom_applyRemovals_pres L _ sel (qsaFrom_removeBySelector_self sel root)
    · exact ih _ hmem

/-- The Full-vs-Main scenario input. -/
def c3html : Str := "<body><nav>N</nav><article>A</article></body>".data

/-- C3, counterexample: on the scenario input, Full + Text yields `"NA"`,
not the claimed `"N\nA"`: `extractContent` takes `content.textContent`
(plain concatenation of text nodes, no block boundaries) and `cleanText`
collapses every whitespace run to a single space anyway, so no newline can
separate the two texts. -/
theorem c3_counterexample :
    extractContent (fun s => s) c3html false ContentFormat.text = "NA".data ∧
    "NA".data ≠ "N\nA".data :=
  ⟨rfl, by decide⟩

/-- C3 (amended): on `"<body><nav>N</nav><article>A</article></body>"`,
Main + Text extracts exactly `"A"` (the nav is removed and no container
reaches 100 characters, so the body is used); Full + Text extracts `"NA"`
in document order — with no newline at the block boundary, since
`textContent` concatenates text nodes directly and `cleanText` collapses
all whitespace to single spaces. -/
theorem c3_scenario (td : Str → Str) :
    extractContent td c3html true ContentFormat.text = "A".data ∧
    extractContent td c3html false ContentFormat.text = "NA".data :=
  ⟨rfl, rfl⟩

/-- Witness: the amended C3 scenario at a concrete (identity) Turndown. -/
theorem c3_witness :
    extractContent (fun s => s) c3html true ContentFormat.text = "A".data :=
  (c3_scenario (fun s => s)).1

/-- The C4 input: elements with `id="ads"` and `id="navbar"`. -/
def c4html : Str :=
  "<body><div id=\"ads\">AD</div><div id=\"navbar\">NB</div><p>x</p></body>".data

/-- C4, counterexample: elements with `id="ads"` and `id="navbar"` survive
the Main-scope removals and appear in the output (`"ADNBx"`), because the
removal list carries only the five id selectors `#nav, #header, #footer,
#sidebar, #menu` — `#ads`, `#navbar`, `#advertisement`, `#ad` are absent
(the nine names are covered only as class selectors). -/
theorem c4_id_counterexample :
    extractContent (fun s => s) c4html true ContentFormat.text = "ADNBx".data ∧
    containsSub "AD".data
      (extractContent (fun s => s) c4html true ContentFormat.text) = true :=
  ⟨rfl, by decide⟩

/-- C4 (amended): before the content container is selected, the Main scope
removes every match of each selector in its removal list — the five noise
tags, the four role attributes, all nine names as class selectors, but only
the five id selectors `#nav, #header, #footer, #sidebar, #menu`; elements
with `id` equal to `ads`, `navbar`, `advertisement` or `ad` are NOT removed
by the id-based rules. -/
theorem c4_noise_removal (root : HNode) (sel : Str)
    (h : sel ∈ mainOnlyRemoveSelectors) :
    qsaFrom (mainCleanup root) sel = [] :=
  qsaFrom_applyRemovals_mem mainOnlyRemoveSelectors _ sel h

/-- Witness: the amended C4 theorem applied to the concrete C4 document and
the class selector `.ads`. -/
theorem c4_witness :
    qsaFrom (mainCleanup (parseHtml c4html)) ".ads".data = [] :=
  c4_noise_removal (parseHtml c4html) ".ads".data (by decide)

/-- C10: present-but-empty metadata values become null, not the empty
string: an existing `<title>`/`<h1>` with blank text, an existing
`<meta name=...>` with an empty `content`, and an existing canonical link
with an empty `href` all yield null fields (the code's `|| null` maps the
falsy empty string to null). -/
theorem c10_empty_values_null (root : HNode) :
    (∀ el, qsFirst root "title".data = some el → jsTrim (textN el) = [] →
      (pageMetaOfRoot root).title = none) ∧
    (∀ el, qsFirst root "h1".data = some el → jsTrim (textN el) = [] →
      (pageMetaOfRoot root).heading = none) ∧
    (∀ name el, qsFirst root (metaNameSel name) = some el →
      getAttr (attrsOf el) "content".data = some [] →
      getMetaContent root name = none) ∧
    (∀ el, qsFirst root (metaNameSel "description".data) = some el →
      getAttr (attrsOf el) "content".data = some [] →
      (pageMetaOfRoot root).description = none) ∧
    (∀ el, qsFirst root (metaNameSel "keywords".data) = some el →
      getAttr (attrsOf el) "content".data = some [] →
      (pageMetaOfRoot root).keywords = none) ∧
    (∀ el, qsFirst root (metaNameSel "robots".data) = some el →
      getAttr (attrsOf el) "content".data = some [] →
      (pageMetaOfRoot root).robots = none) ∧
    (∀ el, qsFirst root "link[rel=\"canonical\"]".data = some el →
      getAttr (attrsOf el) "href".data = some [] →
      (pageMetaOfRoot root).canonical = none) := by
  have hmeta : ∀ name el, qsFirst root (metaNameSel name) = some el →
      getAttr (attrsOf el) "content".data = some [] →
      getMetaContent root name = none := by
    intro name el h1 h2
    unfold getMetaContent
    rw [h1]
    simp [Option.bind, h2, jsOrNull]
  refine ⟨?_, ?_, hmeta, ?_, ?_, ?_, ?_⟩
  · intro el h1 h2
    show getTitle root = none
    unfold getTitle
    rw [h1]
    simp [h2, jsOrNull]
  · intro el h1 h2
    show getFirstHeading root = none
    unfold getFirstHeading
    rw [h1]
    simp [h2, jsOrNull]
  · intro el h1 h2
    exact hmeta "description".data el h1 h2
  · intro el h1 h2
    exact hmeta "keywords".data el h1 h2
  · intro el h1 h2
    exact hmeta "robots".data el h1 h2
  · intro el h1 h2
    show getCanonical root = none
    unfold getCanonical
    rw [h1]
    simp [Option.bind, h2, jsOrNull]

/-- The C10 witness document: blank title and h1, empty description content,
empty canonical href. -/
def w10 : Str :=
  "<html><head><title> </title><meta name=\"description\" content=\"\"><link rel=\"canonical\" href=\"\"></head><body><h1></h1></body></html>".data

set_option maxRecDepth 16384 in
/-- Witness: the C10 theorem applied to the concrete document, with every
hypothesis discharged by computation. -/
theorem c10_witness :
    (parseHtmlMeta w10).title = none ∧ (parseHtmlMeta w10).description = none ∧
    (parseHtmlMeta w10).canonical = none ∧ (parseHtmlMeta w10).heading = none :=
  ⟨(c10_empty_values_null (parseHtml w10)).1
      (HNode.elem "title".data [] [.text " ".data]) rfl rfl,
   (c10_empty_values_null (parseHtml w10)).2.2.2.1
      (HNode.elem "meta".data
        [("name".data, "description".data), ("content".data, [])] []) rfl rfl,
   (c10_empty_values_null (parseHtml w10)).2.2.2.2.2.2
      (HNode.elem "link".data
        [("rel".data, "canonical".data), ("href".data, [])] []) rfl rfl,
   (c10_empty_values_null (parseHtml w10)).2.1
      (HNode.elem "h1".data [] []) rfl rfl⟩

end WebContent
